import Mathlib

/-!
Verification development for the B12 application-submission client
(`src/submit.py`). The script reads six configuration values from the
process environment, builds a canonical JSON payload with sorted keys,
signs the payload with HMAC-SHA256, and POSTs it to a fixed endpoint.

This file gives a shallow embedding of the pure core of the script:

* `pyStrip`, `pyTake`, `natRepr` — the Python string primitives the
  script relies on (`str.strip`, slicing, `str(...)` of an int);
* `create_payload` — `json.dumps(payload, ensure_ascii=False,
  separators=(',', ':'), sort_keys=True)` over the six fixed fields;
* `compute_signature` — HMAC-SHA256 (FIPS 198-1 over FIPS 180-4)
  of the UTF-8 payload bytes keyed by the UTF-8 secret bytes, rendered
  as lowercase hex, as produced by `hmac.new(...).hexdigest()`;
* `generate_timestamp` — `datetime.isoformat(timespec="milliseconds")`
  on an aware UTC instant followed by `.replace("+00:00", "Z")`;
* `get_env_variable` and `run` — the configuration lookup and the
  observable event trace of `main` up to the outbound POST.

Machine words are `Nat` with explicit reduction modulo `2^32`; byte
strings are `List Nat`; fallible configuration lookup returns `Except`.
All definitions are executable, and the hash pipeline is checked below
against FIPS / RFC 4231 test vectors inside the logic.
-/

set_option maxRecDepth 100000

namespace B12

/-! ## Python string primitives -/

/-- Whitespace stripped by Python `str.strip()` (the ASCII subset;
the inputs of the script are environment-variable text). -/
def pyIsSpace (c : Char) : Bool :=
  c == ' ' || c == '\t' || c == '\n' || c == '\r' || c == '\x0b' || c == '\x0c'

/-- Python `s.strip()`: drop leading and trailing whitespace. -/
def pyStrip (s : String) : String :=
  String.mk (((s.data.dropWhile pyIsSpace).reverse.dropWhile pyIsSpace).reverse)

/-- Python `s[:n]`: the first `n` characters (code points) of `s`. -/
def pyTake (n : Nat) (s : String) : String := String.mk (s.data.take n)

/-- Decimal digits of `n`, fuel-driven so that it is structurally
recursive and kernel-reducible. -/
def natDecChars : Nat → Nat → List Char
  | 0, _ => []
  | fuel + 1, n =>
    if n < 10 then [Nat.digitChar n]
    else natDecChars fuel (n / 10) ++ [Nat.digitChar (n % 10)]

/-- Python `str(n)` for a natural number. -/
def natRepr (n : Nat) : String := String.mk (natDecChars (n + 1) n)

/-! ## Code-point-wise string order

Python compares `str` values lexicographically by code point; this is
the order `sort_keys=True` sorts by. the built-in Lean `String` order is
not kernel-reducible, so the comparison is spelled out over the lists
of code points. -/

/-- Strict lexicographic order on code-point lists. -/
def codeLt : List Nat → List Nat → Bool
  | [], [] => false
  | [], _ :: _ => true
  | _ :: _, [] => false
  | a :: as, b :: bs => a < b || (a == b && codeLt as bs)

/-- Code points of a string. -/
def strCodes (s : String) : List Nat := s.data.map Char.toNat

/-- Python `a < b` on strings. -/
def strLtB (a b : String) : Bool := codeLt (strCodes a) (strCodes b)

/-- Python `a <= b` on strings (total order: `¬ b < a`). -/
def strLeB (a b : String) : Bool := !strLtB b a

/-! ## UTF-8 encoding

`payload.encode("utf-8")` and `secret.encode("utf-8")` in
`compute_signature`. -/

/-- UTF-8 bytes of one scalar value. -/
def utf8Bytes (c : Char) : List Nat :=
  let n := c.toNat
  if n < 128 then [n]
  else if n < 2048 then [192 + n / 64, 128 + n % 64]
  else if n < 65536 then [224 + n / 4096, 128 + n / 64 % 64, 128 + n % 64]
  else [240 + n / 262144, 128 + n / 4096 % 64, 128 + n / 64 % 64, 128 + n % 64]

/-- UTF-8 bytes of a string. -/
def utf8Encode (s : String) : List Nat := s.data.flatMap utf8Bytes

/-! ## Canonical JSON serialization (`create_payload`)

`json.dumps(payload, ensure_ascii=False, separators=(',', ':'),
sort_keys=True)`: keys sorted by code point, no insignificant
whitespace, and with `ensure_ascii=False` only `"`, `\` and control
characters are escaped inside string values (`json.encoder.ESCAPE_DCT`:
short escapes for `\b \t \n \f \r`, `\u00xx` for the other control
characters). -/

/-- Escaping of one character inside a JSON string value, as performed
by `json.dumps` with `ensure_ascii=False`. -/
def escapeChar (c : Char) : String :=
  if c = '"' then "\\\""
  else if c = '\\' then "\\\\"
  else if c = '\x08' then "\\b"
  else if c = '\x0c' then "\\f"
  else if c = '\n' then "\\n"
  else if c = '\r' then "\\r"
  else if c = '\t' then "\\t"
  else if c.toNat < 32 then
    "\\u00" ++ String.mk [Nat.digitChar (c.toNat / 16), Nat.digitChar (c.toNat % 16)]
  else String.singleton c

/-- A JSON string literal: quote, escape each character, quote. -/
def jsonQuote (s : String) : String :=
  "\"" ++ String.join (s.data.map escapeChar) ++ "\""

/-- The six payload fields in the dict-literal order of `create_payload`
(insertion order in the Python source, before `sort_keys` applies). -/
def payloadPairs (timestamp name email resume_link repository_link action_run_link : String) :
    List (String × String) :=
  [("timestamp", timestamp), ("name", name), ("email", email),
   ("resume_link", resume_link), ("repository_link", repository_link),
   ("action_run_link", action_run_link)]

/-- Insert a pair into a key-sorted list (insertion step of sorting by
key, Python string order). -/
def insertPair (p : String × String) :
    List (String × String) → List (String × String)
  | [] => [p]
  | q :: rest => if strLeB p.1 q.1 = true then p :: q :: rest else q :: insertPair p rest

/-- Sort an association list by key (the effect of `sort_keys=True`). -/
def sortPairs (l : List (String × String)) : List (String × String) :=
  l.foldr insertPair []

/-- One `"key":"value"` item with the `':'` separator and no space. -/
def renderPair (p : String × String) : String := jsonQuote p.1 ++ ":" ++ jsonQuote p.2

/-- Join items with the `','` separator and no space. -/
def joinComma : List String → String
  | [] => ""
  | [s] => s
  | s :: rest => s ++ "," ++ joinComma rest

/-- A JSON object from an (already ordered) association list. -/
def serializeObj (pairs : List (String × String)) : String :=
  "\x7b" ++ joinComma (pairs.map renderPair) ++ "\x7d"

/-- Embedding of `create_payload` from `src/submit.py`: build the
six-field dict and serialize it canonically (sorted keys, compact
separators, `ensure_ascii=False`). -/
def create_payload
    (timestamp name email resume_link repository_link action_run_link : String) : String :=
  serializeObj (sortPairs
    (payloadPairs timestamp name email resume_link repository_link action_run_link))

/-! ## SHA-256 (FIPS 180-4)

`hashlib.sha256` as called by `hmac.new(..., hashlib.sha256)`. Words
are `Nat` reduced modulo `2^32` (`mod32`); messages and digests are
lists of byte values. -/

/-- Reduction modulo the 32-bit word size. -/
def mod32 (n : Nat) : Nat := n % 4294967296

/-- Right rotation of a 32-bit word (words are kept below `2^32`). -/
def rotr32 (x n : Nat) : Nat := x / 2 ^ n + x % 2 ^ n * 2 ^ (32 - n)

/-- Logical right shift of a 32-bit word. -/
def shr32 (x n : Nat) : Nat := x / 2 ^ n

/-- SHA-256 `Σ₀`. -/
def bigS0 (x : Nat) : Nat := Nat.xor (rotr32 x 2) (Nat.xor (rotr32 x 13) (rotr32 x 22))

/-- SHA-256 `Σ₁`. -/
def bigS1 (x : Nat) : Nat := Nat.xor (rotr32 x 6) (Nat.xor (rotr32 x 11) (rotr32 x 25))

/-- SHA-256 `σ₀`. -/
def smallS0 (x : Nat) : Nat := Nat.xor (rotr32 x 7) (Nat.xor (rotr32 x 18) (shr32 x 3))

/-- SHA-256 `σ₁`. -/
def smallS1 (x : Nat) : Nat := Nat.xor (rotr32 x 17) (Nat.xor (rotr32 x 19) (shr32 x 10))

/-- SHA-256 `Ch(x,y,z)`; `¬x` is complement against the 32-bit mask. -/
def chFn (x y z : Nat) : Nat := Nat.xor (Nat.land x y) (Nat.land (Nat.xor x 4294967295) z)

/-- SHA-256 `Maj(x,y,z)`. -/
def majFn (x y z : Nat) : Nat :=
  Nat.xor (Nat.land x y) (Nat.xor (Nat.land x z) (Nat.land y z))

/-- The eight-word hash state. -/
structure Hash8 where
  a : Nat
  b : Nat
  c : Nat
  d : Nat
  e : Nat
  f : Nat
  g : Nat
  h : Nat

/-- SHA-256 initial hash value `H⁽⁰⁾` (FIPS 180-4 §5.3.3, written in
decimal). -/
def iv256 : Hash8 :=
  ⟨1779033703, 3144134277, 1013904242, 2773480762,
   1359893119, 2600822924, 528734635, 1541459225⟩

/-- The 64 SHA-256 round constants (FIPS 180-4 §4.2.2, written in
decimal). -/
def k256 : List Nat :=
  [1116352408, 1899447441, 3049323471, 3921009573, 961987163,
   1508970993, 2453635748, 2870763221, 3624381080, 310598401,
   607225278, 1426881987, 1925078388, 2162078206, 2614888103,
   3248222580, 3835390401, 4022224774, 264347078, 604807628,
   770255983, 1249150122, 1555081692, 1996064986, 2554220882,
   2821834349, 2952996808, 3210313671, 3336571891, 3584528711,
   113926993, 338241895, 666307205, 773529912, 1294757372,
   1396182291, 1695183700, 1986661051, 2177026350, 2456956037,
   2730485921, 2820302411, 3259730800, 3345764771, 3516065817,
   3600352804, 4094571909, 275423344, 430227734, 506948616,
   659060556, 883997877, 958139571, 1322822218, 1537002063,
   1747873779, 1955562222, 2024104815, 2227730452, 2361852424,
   2428436474, 2756734187, 3204031479, 3329325298]

/-- Message-schedule extension: 48 steps, most recent word first, so
`W[i-2], W[i-7], W[i-15], W[i-16]` sit at positions 1, 6, 14, 15. -/
def schedAux : Nat → List Nat → List Nat
  | 0, acc => acc
  | n + 1, acc =>
    schedAux n
      (mod32 (smallS1 (acc.getD 1 0) + acc.getD 6 0 + smallS0 (acc.getD 14 0) + acc.getD 15 0)
        :: acc)

/-- The 64-word message schedule of one block. -/
def schedule (block : List Nat) : List Nat := (schedAux 48 block.reverse).reverse

/-- One compression round. -/
def roundStep (k w : Nat) (st : Hash8) : Hash8 :=
  let t1 := mod32 (st.h + bigS1 st.e + chFn st.e st.f st.g + k + w)
  let t2 := mod32 (bigS0 st.a + majFn st.a st.b st.c)
  ⟨mod32 (t1 + t2), st.a, st.b, st.c, mod32 (st.d + t1), st.e, st.f, st.g⟩

/-- The 64 rounds, over the zipped constants and schedule. -/
def roundsGo : List (Nat × Nat) → Hash8 → Hash8
  | [], st => st
  | (k, w) :: rest, st => roundsGo rest (roundStep k w st)

/-- Compress one 16-word block into the state. -/
def compress (st : Hash8) (block : List Nat) : Hash8 :=
  let r := roundsGo (k256.zip (schedule block)) st
  ⟨mod32 (st.a + r.a), mod32 (st.b + r.b), mod32 (st.c + r.c), mod32 (st.d + r.d),
   mod32 (st.e + r.e), mod32 (st.f + r.f), mod32 (st.g + r.g), mod32 (st.h + r.h)⟩

/-- Big-endian 32-bit words from bytes. -/
def bytesToWords : List Nat → List Nat
  | b0 :: b1 :: b2 :: b3 :: rest =>
    (b0 * 16777216 + b1 * 65536 + b2 * 256 + b3) :: bytesToWords rest
  | _ => []

/-- The 64-bit big-endian message-length field of the padding. -/
def lengthBytes64 (n : Nat) : List Nat :=
  [n / 2 ^ 56 % 256, n / 2 ^ 48 % 256, n / 2 ^ 40 % 256, n / 2 ^ 32 % 256,
   n / 2 ^ 24 % 256, n / 2 ^ 16 % 256, n / 2 ^ 8 % 256, n % 256]

/-- SHA-256 padding: `0x80`, zeros to 56 mod 64, bit length. -/
def shaPad (msg : List Nat) : List Nat :=
  msg ++ 128 :: List.replicate ((119 - msg.length % 64) % 64) 0 ++ lengthBytes64 (8 * msg.length)

/-- Fold the compression over consecutive 64-byte blocks; the fuel is
the block count, keeping the recursion structural. -/
def processBlocks : Nat → List Nat → Hash8 → Hash8
  | 0, _, st => st
  | fuel + 1, bytes, st =>
    processBlocks fuel (bytes.drop 64) (compress st (bytesToWords (bytes.take 64)))

/-- Big-endian digest bytes of the final state. -/
def digestOfState (st : Hash8) : List Nat :=
  [st.a / 16777216, st.a / 65536, st.a / 256, st.a,
   st.b / 16777216, st.b / 65536, st.b / 256, st.b,
   st.c / 16777216, st.c / 65536, st.c / 256, st.c,
   st.d / 16777216, st.d / 65536, st.d / 256, st.d,
   st.e / 16777216, st.e / 65536, st.e / 256, st.e,
   st.f / 16777216, st.f / 65536, st.f / 256, st.f,
   st.g / 16777216, st.g / 65536, st.g / 256, st.g,
   st.h / 16777216, st.h / 65536, st.h / 256, st.h].map (· % 256)

/-- SHA-256 of a byte string. -/
def sha256 (msg : List Nat) : List Nat :=
  digestOfState (processBlocks ((shaPad msg).length / 64) (shaPad msg) iv256)

/-! ## HMAC (FIPS 198-1) and `compute_signature` -/

/-- HMAC-SHA256 over byte strings: hash an over-long key, zero-pad to
the 64-byte block, and run the two-pass inner/outer construction with
the `0x36` / `0x5c` pads. This is `hmac.new(key, msg, hashlib.sha256)`.
-/
def hmacSha256 (key msg : List Nat) : List Nat :=
  let k0 := if 64 < key.length then sha256 key else key
  let kp := k0 ++ List.replicate (64 - k0.length) 0
  sha256 ((kp.map (fun b => Nat.xor b 92)) ++ sha256 ((kp.map (fun b => Nat.xor b 54)) ++ msg))

/-- Two lowercase hex characters of one byte (`hexdigest` rendering). -/
def byteHexChars (b : Nat) : List Char := [Nat.digitChar (b / 16), Nat.digitChar (b % 16)]

/-- Lowercase hex string of a byte string. -/
def hexOfBytes (bs : List Nat) : String := String.mk (bs.flatMap byteHexChars)

/-- Embedding of `compute_signature` from `src/submit.py`: the HMAC is
keyed by `secret.encode("utf-8")` over `payload.encode("utf-8")` and
rendered with `.hexdigest()`. The Python function performs no check on
the secret. -/
def compute_signature (payload secret : String) : String :=
  hexOfBytes (hmacSha256 (utf8Encode secret) (utf8Encode payload))

/-! ## Timestamp generation (`generate_timestamp`)

`datetime.now(timezone.utc).isoformat(timespec="milliseconds")
.replace("+00:00", "Z")`. The wall-clock instant read by
`datetime.now` is modelled as an explicit `PyDateTime` argument with
the component bounds `datetime` guarantees. -/

/-- A `datetime` instant, already truncated to milliseconds as
`timespec="milliseconds"` does. -/
structure PyDateTime where
  year : Nat
  month : Nat
  day : Nat
  hour : Nat
  minute : Nat
  second : Nat
  millisecond : Nat

/-- The component ranges every `datetime` value satisfies
(`MINYEAR = 1`, `MAXYEAR = 9999`; no leap seconds). -/
def validInstant (dt : PyDateTime) : Prop :=
  1 ≤ dt.year ∧ dt.year ≤ 9999 ∧ 1 ≤ dt.month ∧ dt.month ≤ 12 ∧
    1 ≤ dt.day ∧ dt.day ≤ 31 ∧ dt.hour ≤ 23 ∧ dt.minute ≤ 59 ∧
    dt.second ≤ 59 ∧ dt.millisecond ≤ 999

instance (dt : PyDateTime) : Decidable (validInstant dt) := by
  unfold validInstant; infer_instance

/-- Zero-padded `%02d` digits of a value below 100. -/
def pad2 (n : Nat) : List Char := [Nat.digitChar (n / 10), Nat.digitChar (n % 10)]

/-- Zero-padded `%03d` digits of a value below 1000. -/
def pad3 (n : Nat) : List Char :=
  [Nat.digitChar (n / 100), Nat.digitChar (n / 10 % 10), Nat.digitChar (n % 10)]

/-- Zero-padded `%04d` digits of a value below 10000. -/
def pad4 (n : Nat) : List Char :=
  [Nat.digitChar (n / 1000), Nat.digitChar (n / 100 % 10),
   Nat.digitChar (n / 10 % 10), Nat.digitChar (n % 10)]

/-- Characters of `dt.isoformat(timespec="milliseconds")` for an aware
UTC instant: `YYYY-MM-DDTHH:MM:SS.mmm+00:00`. -/
def isoChars (dt : PyDateTime) : List Char :=
  pad4 dt.year ++ '-' :: pad2 dt.month ++ '-' :: pad2 dt.day ++
    'T' :: pad2 dt.hour ++ ':' :: pad2 dt.minute ++ ':' :: pad2 dt.second ++
    '.' :: pad3 dt.millisecond ++ "+00:00".data

/-- Does `pat` match at the head of `s`? -/
def leadsWith : List Char → List Char → Bool
  | [], _ => true
  | _ :: _, [] => false
  | p :: ps, c :: cs => p = c && leadsWith ps cs

/-- Python `s.replace(pat, rep)`: replace every (left-to-right,
non-overlapping) occurrence; an empty pattern is treated as matching
nowhere (the pattern used by the script is never empty). -/
def replaceAll (pat rep : List Char) : List Char → List Char
  | [] => []
  | c :: rest =>
    if pat ≠ [] ∧ leadsWith pat (c :: rest) = true then
      rep ++ replaceAll pat rep (rest.drop (pat.length - 1))
    else
      c :: replaceAll pat rep rest
  termination_by l => l.length
  decreasing_by
    · simp [List.length_drop]; omega
    · simp

/-- Embedding of `generate_timestamp` from `src/submit.py` at a given
instant: the `isoformat` text with every `+00:00` replaced by `Z`. -/
def generate_timestamp (dt : PyDateTime) : String :=
  String.mk (replaceAll "+00:00".data "Z".data (isoChars dt))

/-- Character classes of the `YYYY-MM-DDTHH:MM:SS.mmmZ` shape, one per
position (24 in total). -/
def tsClasses : List (Char → Bool) :=
  [Char.isDigit, Char.isDigit, Char.isDigit, Char.isDigit, (· = '-'),
   Char.isDigit, Char.isDigit, (· = '-'), Char.isDigit, Char.isDigit,
   (· = 'T'), Char.isDigit, Char.isDigit, (· = ':'), Char.isDigit, Char.isDigit,
   (· = ':'), Char.isDigit, Char.isDigit, (· = '.'),
   Char.isDigit, Char.isDigit, Char.isDigit, (· = 'Z')]

/-- Pointwise match of a character list against a list of classes of
the same length. -/
def matchesClasses : List (Char → Bool) → List Char → Bool
  | [], [] => true
  | cl :: cls, c :: cs => cl c && matchesClasses cls cs
  | _, _ => false

/-- Does a string have exactly the `YYYY-MM-DDTHH:MM:SS.mmmZ` shape? -/
def matchesTimestampShape (s : String) : Bool := matchesClasses tsClasses s.data

/-! ## Configuration and the observable behavior of `main`

`get_env_variable` exits the process when the variable is unset or is
the empty string (`if not value`), and only then strips the value.
`main` is modelled by the list of observable events it produces, up to
and including the outbound POST; the response handling after the POST
is irrelevant to the claims. -/

/-- Embedding of `get_env_variable` from `src/submit.py`: `error name`
models `sys.exit(1)` after the stderr message, `ok` the returned
`value.strip()`. The emptiness test is on the raw value, before
stripping. -/
def get_env_variable (env : String → Option String) (name : String) : Except String String :=
  match env name with
  | none => Except.error name
  | some v => if v = "" then Except.error name else Except.ok (pyStrip v)

/-- The stderr line printed when a variable is missing. -/
def envErrorLine (name : String) : String :=
  "Error: " ++ name ++ " environment variable is not set"

/-- The six mandatory environment variables, in the order `main` reads
them. -/
def requiredEnvVars : List String :=
  ["B12_SECRET", "B12_NAME", "B12_EMAIL", "B12_RESUME_LINK",
   "B12_REPOSITORY_LINK", "B12_ACTION_RUN_LINK"]

/-- The two secret-derived diagnostic lines `main` prints: the length
and the first four characters of the accepted secret. -/
def secretDiagnostics (secret : String) : List String :=
  ["Secret length: " ++ natRepr secret.length ++ " characters",
   "Secret starts with: " ++ pyTake 4 secret ++ "..."]

/-- The submission endpoint of `submit_application`. -/
def submissionUrl : String := "https://b12.io/apply/submission"

/-- An observable event of a run: console output, stderr output,
process exit, or the outbound POST (with its body and the value of the
`X-Signature-256` header). -/
inductive Event where
  | consoleOut (s : String)
  | consoleErr (s : String)
  | exitProcess (code : Nat)
  | httpPost (url payload signatureHeader : String)
  deriving DecidableEq

/-- Is the event a network request? -/
def Event.isPost : Event → Bool
  | .httpPost _ _ _ => true
  | _ => false

/-- Embedding of `main` from `src/submit.py` as its event trace up to
the outbound POST, for a given environment and wall-clock instant. A
failed `get_env_variable` produces the stderr line and `exit 1` and
nothing further. -/
def run (env : String → Option String) (now : PyDateTime) : List Event :=
  Event.consoleOut "=== B12 Application Submission ===\n" ::
  match get_env_variable env "B12_SECRET" with
  | .error nm => [.consoleErr (envErrorLine nm), .exitProcess 1]
  | .ok secret =>
    (secretDiagnostics secret).map .consoleOut ++
    match get_env_variable env "B12_NAME" with
    | .error nm => [.consoleErr (envErrorLine nm), .exitProcess 1]
    | .ok name =>
      match get_env_variable env "B12_EMAIL" with
      | .error nm => [.consoleErr (envErrorLine nm), .exitProcess 1]
      | .ok email =>
        match get_env_variable env "B12_RESUME_LINK" with
        | .error nm => [.consoleErr (envErrorLine nm), .exitProcess 1]
        | .ok resume_link =>
          match get_env_variable env "B12_REPOSITORY_LINK" with
          | .error nm => [.consoleErr (envErrorLine nm), .exitProcess 1]
          | .ok repository_link =>
            match get_env_variable env "B12_ACTION_RUN_LINK" with
            | .error nm => [.consoleErr (envErrorLine nm), .exitProcess 1]
            | .ok action_run_link =>
              let timestamp := generate_timestamp now
              let payload := create_payload timestamp name email resume_link
                repository_link action_run_link
              let signature := compute_signature payload secret
              [.consoleOut ("Timestamp: " ++ timestamp),
               .consoleOut ("\nCanonical Payload:\n" ++ payload ++ "\n"),
               .consoleOut ("HMAC-SHA256 Signature: " ++ signature ++ "\n"),
               .consoleOut "Submitting application to B12...",
               .httpPost submissionUrl payload ("sha256=" ++ signature)]

/-! ## Auxiliary predicates used by the theorems below -/

/-- Key order on payload pairs (weak). -/
def keyLe (p q : String × String) : Prop := strLeB p.1 q.1 = true

/-- Key order on payload pairs (strict). -/
def keyLt (p q : String × String) : Prop := strLtB p.1 q.1 = true

/-- Is a character one of `0-9a-f`? -/
def isLowerHexDigit (c : Char) : Bool :=
  ('0' ≤ c && c ≤ '9') || ('a' ≤ c && c ≤ 'f')

/-- Does a character list not begin with whitespace? -/
def headNotSpace (l : List Char) : Bool :=
  match l with
  | [] => true
  | c :: _ => !pyIsSpace c

/-- A string with no leading and no trailing whitespace (the trailing
end inspected through the reversed character list). -/
def noEdgeSpace (s : String) : Bool :=
  headNotSpace s.data && headNotSpace s.data.reverse

/-! ## Test-vector anchors

The hash pipeline evaluated inside the logic against the published
FIPS 180-4 / RFC 4231 vectors, tying the embedding to the functions
`hashlib.sha256` and `hmac.new` implement. -/

/-- SHA-256 of the empty message (FIPS 180-4 reference value). -/
theorem sha256_empty_vector :
    hexOfBytes (sha256 []) =
      "e3b0c44298fc1c149afbf4c8996fb92427ae41e4649b934ca495991b7852b855" := by decide

/-- SHA-256 of `"abc"` (FIPS 180-4 reference value). -/
theorem sha256_abc_vector :
    hexOfBytes (sha256 [97, 98, 99]) =
      "ba7816bf8f01cfea414140de5dae2223b00361a396177a9cb410ff61f20015ad" := by decide

/-- RFC 4231 test case 2: HMAC-SHA256 with key `"Jefe"`, through the
embedded `compute_signature` itself. -/
theorem hmac_rfc4231_case2_vector :
    compute_signature "what do ya want for nothing?" "Jefe" =
      "5bdcc146bf60754e6a042426089575c75a003f089d2739839dec58b964ec3843" := by decide

/-- A 65-byte key exercises the hash-the-key branch of HMAC (reference
value computed with an independent HMAC-SHA256 implementation). -/
theorem hmac_long_key_vector :
    hexOfBytes (hmacSha256 (List.replicate 65 107) [109, 115, 103]) =
      "c65585780e821bd312cfaa440c33cb28d6af6b323d4977ae83934834ce589e38" := by decide

/-! ## Order lemmas for the key sort -/

/-- The code-point order is asymmetric. -/
theorem codeLt_asymm : ∀ x y : List Nat, codeLt x y = true → codeLt y x = false
  | [], [], h => by simp [codeLt] at h
  | [], _ :: _, _ => by simp [codeLt]
  | _ :: _, [], h => by simp [codeLt] at h
  | a :: as, b :: bs, h => by
    simp only [codeLt, Bool.or_eq_true, Bool.and_eq_true, beq_iff_eq,
      decide_eq_true_eq] at h
    simp only [codeLt, Bool.or_eq_false_iff, Bool.and_eq_false_iff,
      decide_eq_false_iff_not, not_lt, beq_eq_false_iff_ne, ne_eq]
    rcases h with h | ⟨rfl, h⟩
    · exact ⟨by omega, Or.inl (by omega)⟩
    · exact ⟨le_refl _, Or.inr (codeLt_asymm as bs h)⟩

/-- The code-point order is transitive. -/
theorem codeLt_trans :
    ∀ x y z : List Nat, codeLt x y = true → codeLt y z = true → codeLt x z = true
  | [], [], _, h1, _ => by simp [codeLt] at h1
  | [], _ :: _, [], _, h2 => by simp [codeLt] at h2
  | [], _ :: _, _ :: _, _, _ => by simp [codeLt]
  | _ :: _, [], _, h1, _ => by simp [codeLt] at h1
  | _ :: _, _ :: _, [], _, h2 => by simp [codeLt] at h2
  | a :: as, b :: bs, c :: cs, h1, h2 => by
    simp only [codeLt, Bool.or_eq_true, Bool.and_eq_true, beq_iff_eq,
      decide_eq_true_eq] at h1 h2 ⊢
    rcases h1 with h1 | ⟨rfl, h1⟩
    · rcases h2 with h2 | ⟨rfl, h2⟩
      · exact Or.inl (by omega)
      · exact Or.inl h1
    · rcases h2 with h2 | ⟨rfl, h2⟩
      · exact Or.inl h2
      · exact Or.inr ⟨rfl, codeLt_trans as bs cs h1 h2⟩

/-- The code-point order is connected: mutually unrelated lists are
equal. -/
theorem codeLt_conn :
    ∀ x y : List Nat, codeLt x y = false → codeLt y x = false → x = y
  | [], [], _, _ => rfl
  | [], _ :: _, h, _ => by simp [codeLt] at h
  | _ :: _, [], _, h => by simp [codeLt] at h
  | a :: as, b :: bs, h, h' => by
    simp only [codeLt, Bool.or_eq_false_iff, Bool.and_eq_false_iff,
      decide_eq_false_iff_not, not_lt, beq_eq_false_iff_ne, ne_eq] at h h'
    have hab : a = b := by omega
    subst hab
    rcases h.2 with h2 | h2
    · exact absurd rfl h2
    · rcases h'.2 with h2' | h2'
      · exact absurd rfl h2'
      · rw [codeLt_conn as bs h2 h2']

/-- Distinct code points mean distinct strings only if `strCodes` is
injective, which it is: a string is its list of code points. -/
theorem strCodes_inj {a b : String} (h : strCodes a = strCodes b) : a = b := by
  rcases a with ⟨da⟩
  rcases b with ⟨db⟩
  simp only [strCodes] at h
  congr 1
  refine List.map_injective_iff.mpr (fun c₁ c₂ hc => ?_) h
  have hchar := congrArg Char.ofNat hc
  rwa [Char.ofNat_toNat, Char.ofNat_toNat] at hchar

/-- `strLeB` is total. -/
theorem strLeB_total (a b : String) : strLeB a b = true ∨ strLeB b a = true := by
  by_cases h : strLtB b a = true
  · right
    have := codeLt_asymm _ _ h
    simp [strLeB, strLtB] at this ⊢
    exact this
  · left
    simp [strLeB]
    simpa using h

/-- A weak inequality between distinct strings is strict. -/
theorem strLtB_of_strLeB_of_ne {a b : String} (hle : strLeB a b = true) (hne : a ≠ b) :
    strLtB a b = true := by
  simp only [strLeB, Bool.not_eq_true'] at hle
  by_contra h
  simp only [Bool.not_eq_true] at h
  exact hne (strCodes_inj (codeLt_conn _ _ h hle))

/-- The weak string order is transitive. -/
theorem strLeB_trans {a b c : String} (h1 : strLeB a b = true) (h2 : strLeB b c = true) :
    strLeB a c = true := by
  simp only [strLeB, strLtB, Bool.not_eq_true'] at h1 h2 ⊢
  by_contra hcon
  simp only [Bool.not_eq_false] at hcon
  by_cases hab : codeLt (strCodes a) (strCodes b) = true
  · have := codeLt_trans _ _ _ hcon hab
    rw [h2] at this
    cases this
  · have heq : strCodes a = strCodes b :=
      codeLt_conn _ _ (Bool.not_eq_true _ ▸ hab : _) h1
    rw [heq] at hcon
    rw [h2] at hcon
    cases hcon

/-- Inserting into a list permutes consing. -/
theorem insertPair_perm (p : String × String) :
    ∀ l : List (String × String), (insertPair p l).Perm (p :: l)
  | [] => List.Perm.refl _
  | q :: rest => by
    rw [insertPair]
    by_cases h : strLeB p.1 q.1 = true
    · rw [if_pos h]
    · rw [if_neg h]
      exact ((insertPair_perm p rest).cons q).trans (List.Perm.swap p q rest)

/-- The key sort permutes its input. -/
theorem sortPairs_perm : ∀ l : List (String × String), (sortPairs l).Perm l
  | [] => List.Perm.refl _
  | p :: rest => by
    rw [sortPairs, List.foldr_cons]
    exact (insertPair_perm p (sortPairs rest)).trans ((sortPairs_perm rest).cons p)

/-- Inserting into a weakly key-sorted list keeps it sorted. -/
theorem insertPair_sorted (p : String × String) :
    ∀ l : List (String × String), l.Sorted keyLe → (insertPair p l).Sorted keyLe
  | [], _ => List.sorted_singleton p
  | q :: rest, hs => by
    rw [insertPair]
    rcases List.sorted_cons.mp hs with ⟨hq, hrest⟩
    by_cases h : strLeB p.1 q.1 = true
    · rw [if_pos h]
      refine List.sorted_cons.mpr ⟨?_, hs⟩
      intro r hr
      rcases List.mem_cons.mp hr with rfl | hr
      · exact h
      · exact strLeB_trans h (hq r hr)
    · rw [if_neg h]
      have hqp : strLeB q.1 p.1 = true := (strLeB_total p.1 q.1).resolve_left h
      refine List.sorted_cons.mpr ⟨?_, insertPair_sorted p rest hrest⟩
      intro r hr
      rcases List.mem_cons.mp ((insertPair_perm p rest).mem_iff.mp hr) with rfl | hr
      · exact hqp
      · exact hq r hr

/-- The key sort produces a weakly key-sorted list. -/
theorem sortPairs_sorted : ∀ l : List (String × String), (sortPairs l).Sorted keyLe
  | [] => List.sorted_nil
  | p :: rest => by
    rw [sortPairs, List.foldr_cons]
    exact insertPair_sorted p (sortPairs rest) (sortPairs_sorted rest)

/-- With pairwise-distinct keys, weak key-sortedness is strict. -/
theorem sorted_keyLt_of_keyLe {l : List (String × String)}
    (hs : l.Sorted keyLe) (hn : (l.map Prod.fst).Nodup) : l.Sorted keyLt := by
  have hne : l.Pairwise (fun p q : String × String => p.1 ≠ q.1) :=
    (List.pairwise_map.mp hn)
  exact (hs.and hne).imp (fun h => strLtB_of_strLeB_of_ne h.1 h.2)

/-- Claim C1. For the fixed example inputs of the spec (§8.7) —
name `Ada Lovelace`, email `ada@example.com`, the three links, and the
fixed timestamp — `create_payload` returns exactly the canonical
string of the spec, byte for byte, with no trailing newline. -/
theorem claim1_canonical_payload_example :
    create_payload "2024-01-01T00:00:00.000Z" "Ada Lovelace" "ada@example.com"
      "https://x/r.pdf" "https://x/repo" "https://x/run/1" =
      "\x7b\"action_run_link\":\"https://x/run/1\",\"email\":\"ada@example.com\",\"name\":\"Ada Lovelace\",\"repository_link\":\"https://x/repo\",\"resume_link\":\"https://x/r.pdf\",\"timestamp\":\"2024-01-01T00:00:00.000Z\"\x7d" := by
  decide

/-- Claim C2. For every tuple of six field values and every insertion
order (any permutation `l` of the field pairs), the key sort produces
exactly the order `action_run_link, email, name, repository_link,
resume_link, timestamp`, and `create_payload` serializes the fields in
exactly that key order. -/
theorem claim2_sorted_key_order
    (t n e rl rp ar : String) (l : List (String × String))
    (hl : l.Perm (payloadPairs t n e rl rp ar)) :
    sortPairs l =
      [("action_run_link", ar), ("email", e), ("name", n),
       ("repository_link", rp), ("resume_link", rl), ("timestamp", t)] ∧
    create_payload t n e rl rp ar =
      serializeObj
        [("action_run_link", ar), ("email", e), ("name", n),
         ("repository_link", rp), ("resume_link", rl), ("timestamp", t)] := by
  have htarget : sortPairs (payloadPairs t n e rl rp ar) =
      [("action_run_link", ar), ("email", e), ("name", n),
       ("repository_link", rp), ("resume_link", rl), ("timestamp", t)] := rfl
  have hppnodup : ((payloadPairs t n e rl rp ar).map Prod.fst).Nodup := by
    show (["timestamp", "name", "email", "resume_link",
      "repository_link", "action_run_link"] : List String).Nodup
    decide
  have hlnodup : (l.map Prod.fst).Nodup :=
    ((hl.map Prod.fst).symm).nodup hppnodup
  have hsnodup : ((sortPairs l).map Prod.fst).Nodup :=
    (((sortPairs_perm l).map Prod.fst).symm).nodup hlnodup
  have hs1 : (sortPairs l).Sorted keyLt :=
    sorted_keyLt_of_keyLe (sortPairs_sorted l) hsnodup
  have hppchain : (payloadPairs t n e rl rp ar).Perm
      ([("action_run_link", ar), ("email", e), ("name", n),
        ("repository_link", rp), ("resume_link", rl), ("timestamp", t)]) :=
    htarget ▸ (sortPairs_perm (payloadPairs t n e rl rp ar)).symm
  have hs2 : ([("action_run_link", ar), ("email", e), ("name", n),
      ("repository_link", rp), ("resume_link", rl), ("timestamp", t)] :
        List (String × String)).Sorted keyLt := by
    have := sorted_keyLt_of_keyLe
      (sortPairs_sorted (payloadPairs t n e rl rp ar))
      ((((sortPairs_perm _).map Prod.fst).symm).nodup hppnodup)
    rwa [htarget] at this
  haveI : IsAntisymm (String × String) keyLt :=
    ⟨fun p q h1 h2 => by
      simp only [keyLt, strLtB] at h1 h2
      rw [codeLt_asymm _ _ h1] at h2
      cases h2⟩
  have heq : sortPairs l =
      [("action_run_link", ar), ("email", e), ("name", n),
       ("repository_link", rp), ("resume_link", rl), ("timestamp", t)] :=
    List.eq_of_perm_of_sorted (((sortPairs_perm l).trans hl).trans hppchain) hs1 hs2
  exact ⟨heq, congrArg serializeObj htarget⟩

/-- Witness for C2 at a shuffled concrete insertion order. -/
theorem claim2_sorted_key_order_witness :
    ([("action_run_link", "A"), ("name", "N"), ("timestamp", "T"), ("email", "E"),
      ("repository_link", "P"), ("resume_link", "R")] : List (String × String)).Perm
        (payloadPairs "T" "N" "E" "R" "P" "A") ∧
    sortPairs
      [("action_run_link", "A"), ("name", "N"), ("timestamp", "T"), ("email", "E"),
       ("repository_link", "P"), ("resume_link", "R")] =
      [("action_run_link", "A"), ("email", "E"), ("name", "N"),
       ("repository_link", "P"), ("resume_link", "R"), ("timestamp", "T")] := by
  have hp : ([("action_run_link", "A"), ("name", "N"), ("timestamp", "T"), ("email", "E"),
      ("repository_link", "P"), ("resume_link", "R")] : List (String × String)).Perm
        (payloadPairs "T" "N" "E" "R" "P" "A") := by decide
  exact ⟨hp, (claim2_sorted_key_order "T" "N" "E" "R" "P" "A" _ hp).1⟩

/-! ## Digest shape lemmas -/

/-- Hex digits of values below 16 are lowercase hex characters. -/
theorem digitChar_isLowerHexDigit {m : Nat} (h : m < 16) :
    isLowerHexDigit (Nat.digitChar m) = true := by
  interval_cases m <;> decide

/-- The digest always consists of 32 bytes. -/
theorem digestOfState_length (st : Hash8) : (digestOfState st).length = 32 := rfl

/-- Every digest entry is a byte value. -/
theorem digestOfState_bytes_lt (st : Hash8) : ∀ b ∈ digestOfState st, b < 256 := by
  intro b hb
  rw [digestOfState, List.mem_map] at hb
  obtain ⟨x, -, rfl⟩ := hb
  exact Nat.mod_lt _ (by norm_num)

/-- SHA-256 always returns 32 bytes. -/
theorem sha256_length (msg : List Nat) : (sha256 msg).length = 32 :=
  digestOfState_length _

/-- SHA-256 returns byte values. -/
theorem sha256_bytes_lt (msg : List Nat) : ∀ b ∈ sha256 msg, b < 256 :=
  digestOfState_bytes_lt _

/-- HMAC-SHA256 always returns 32 bytes. -/
theorem hmacSha256_length (key msg : List Nat) : (hmacSha256 key msg).length = 32 :=
  sha256_length _

/-- HMAC-SHA256 returns byte values. -/
theorem hmacSha256_bytes_lt (key msg : List Nat) : ∀ b ∈ hmacSha256 key msg, b < 256 :=
  sha256_bytes_lt _

/-- Character count of the hex rendering, at the list level. -/
theorem hexChars_length : ∀ bs : List Nat, (bs.flatMap byteHexChars).length = 2 * bs.length
  | [] => rfl
  | b :: rest => by
    simp only [List.flatMap_cons, List.length_append, hexChars_length rest,
      byteHexChars, List.length_cons, List.length_nil]
    omega

/-- Hex rendering doubles the byte count. -/
theorem hexOfBytes_length (bs : List Nat) : (hexOfBytes bs).length = 2 * bs.length :=
  hexChars_length bs

/-- Characters of the hex rendering, at the list level. -/
theorem hexChars_all :
    ∀ bs : List Nat, (∀ b ∈ bs, b < 256) →
      (bs.flatMap byteHexChars).all isLowerHexDigit = true
  | [], _ => rfl
  | b :: rest, h => by
    have hb : b < 256 := h b (List.mem_cons_self b rest)
    have ih := hexChars_all rest (fun x hx => h x (List.mem_cons_of_mem b hx))
    simp only [List.flatMap_cons, List.all_append]
    rw [Bool.and_eq_true]
    refine ⟨?_, ih⟩
    have h1 : b / 16 < 16 := Nat.div_lt_of_lt_mul (by omega)
    have h2 : b % 16 < 16 := Nat.mod_lt _ (by norm_num)
    simp [byteHexChars, digitChar_isLowerHexDigit h1, digitChar_isLowerHexDigit h2]

/-- Hex rendering of bytes uses only lowercase hex characters. -/
theorem hexOfBytes_chars (bs : List Nat) (h : ∀ b ∈ bs, b < 256) :
    (hexOfBytes bs).data.all isLowerHexDigit = true :=
  hexChars_all bs h

/-- Claim C9. For every payload and key, `compute_signature` returns
the full, untruncated HMAC-SHA256 tag rendered as exactly 64 lowercase
hexadecimal characters. (`hmacSha256` is the standard two-pass FIPS
198-1 construction over SHA-256 with no truncation, and the function
is deterministic because it is a pure function of its two arguments;
the test-vector anchors above pin the construction to the reference
values.) -/
theorem claim9_signature_hex64 (payload secret : String) :
    (compute_signature payload secret).length = 64 ∧
      (compute_signature payload secret).data.all isLowerHexDigit = true := by
  constructor
  · rw [compute_signature, hexOfBytes_length, hmacSha256_length]
  · exact hexOfBytes_chars _ (hmacSha256_bytes_lt _ _)

/-- Claim C3, counterexample. `compute_signature` does not signal any
error when the secret is empty: the script contains no
`MissingSecretError`, and with the empty key it simply returns the
ordinary HMAC-SHA256 tag (reference value from an independent HMAC
implementation with a zero-length key). -/
theorem claim3_counterexample :
    compute_signature "test" "" =
      "43b0cef99265f9e34c10ea9d3501926d27b39f57c6d674561d8ba236e7a819fb" := by decide

/-- Claim C3, amended. `compute_signature` performs no validation of
the secret and signals no error: for every payload it is total on the
empty secret and returns the ordinary zero-length-key HMAC-SHA256 tag
of 64 characters. (The env-var check in `main` is the only guard, and
it fires on the raw value before stripping.) -/
theorem claim3_empty_secret_signs (payload : String) :
    compute_signature payload "" = hexOfBytes (hmacSha256 [] (utf8Encode payload)) ∧
      (compute_signature payload "").length = 64 := by
  constructor
  · rfl
  · rw [compute_signature, hexOfBytes_length, hmacSha256_length]

/-- Claim C10. The HMAC key bytes are exactly the UTF-8 encoding of
the secret string, and the message bytes exactly the UTF-8 encoding of
the payload string: a verifier that derives the key by UTF-8-encoding
the shared secret reproduces the tag. -/
theorem claim10_utf8_key_derivation (payload secret : String)
    (keyBytes msgBytes : List Nat)
    (hk : keyBytes = utf8Encode secret) (hm : msgBytes = utf8Encode payload) :
    compute_signature payload secret = hexOfBytes (hmacSha256 keyBytes msgBytes) := by
  rw [hk, hm]; rfl

/-- Witness for C10 with a non-ASCII secret: the key bytes are the
multi-byte UTF-8 encoding of `clé`. -/
theorem claim10_utf8_key_derivation_witness :
    utf8Encode "clé" = [99, 108, 195, 169] ∧
      compute_signature "a" "clé" = hexOfBytes (hmacSha256 [99, 108, 195, 169] [97]) :=
  ⟨by decide, claim10_utf8_key_derivation "a" "clé" [99, 108, 195, 169] [97]
    (by decide) (by decide)⟩

/-! ## Stripping lemmas and claim C4 -/

/-- The first survivor of `dropWhile` fails the predicate. -/
theorem dropWhile_first_false (p : Char → Bool) :
    ∀ (l : List Char) c rest, List.dropWhile p l = c :: rest → p c = false
  | [], c, rest, h => by simp [List.dropWhile] at h
  | a :: as, c, rest, h => by
    rw [List.dropWhile_cons] at h
    by_cases ha : p a = true
    · rw [if_pos ha] at h
      exact dropWhile_first_false p as c rest h
    · rw [if_neg ha] at h
      cases h
      simpa using ha

/-- `dropWhile` removes a prefix. -/
theorem dropWhile_eq_append (p : Char → Bool) :
    ∀ l : List Char, ∃ w, l = w ++ l.dropWhile p
  | [] => ⟨[], rfl⟩
  | a :: as => by
    rw [List.dropWhile_cons]
    by_cases ha : p a = true
    · rw [if_pos ha]
      obtain ⟨w, hw⟩ := dropWhile_eq_append p as
      exact ⟨a :: w, by rw [List.cons_append, ← hw]⟩
    · rw [if_neg ha]
      exact ⟨[], rfl⟩

/-- What `dropWhile` leaves does not begin with a matching element. -/
theorem headNotSpace_dropWhile (l : List Char) :
    headNotSpace (List.dropWhile pyIsSpace l) = true := by
  cases hd : List.dropWhile pyIsSpace l with
  | nil => rfl
  | cons c x => simp [headNotSpace, dropWhile_first_false pyIsSpace l c x hd]

/-- Stripping leaves no surrounding whitespace. -/
theorem noEdgeSpace_pyStrip (s : String) : noEdgeSpace (pyStrip s) = true := by
  show (headNotSpace ((s.data.dropWhile pyIsSpace).reverse.dropWhile pyIsSpace).reverse &&
      headNotSpace ((s.data.dropWhile pyIsSpace).reverse.dropWhile pyIsSpace).reverse.reverse) =
    true
  rw [Bool.and_eq_true, List.reverse_reverse]
  refine ⟨?_, headNotSpace_dropWhile _⟩
  obtain ⟨w, hw⟩ := dropWhile_eq_append pyIsSpace (s.data.dropWhile pyIsSpace).reverse
  cases hur : ((s.data.dropWhile pyIsSpace).reverse.dropWhile pyIsSpace).reverse with
  | nil => rfl
  | cons c x =>
    have hterm := congrArg List.reverse hw
    rw [List.reverse_reverse, List.reverse_append, hur, List.cons_append] at hterm
    simp [headNotSpace, dropWhile_first_false pyIsSpace s.data c _ hterm]

/-- Claim C4, counterexample. A value consisting only of whitespace
passes the (pre-strip) emptiness check and reaches the caller as the
empty string: the claim that every returned value is non-empty after
trimming is false. -/
theorem claim4_counterexample :
    get_env_variable (fun _ => some " ") "B12_NAME" = Except.ok "" := rfl

/-- Claim C4, amended. Every value `get_env_variable` returns is the
`strip()` of a raw environment value and carries no surrounding
whitespace; the non-emptiness check, however, is applied to the raw
value before stripping, so the returned value itself may be empty
(exactly when the raw value is whitespace-only). -/
theorem claim4_returned_value_trimmed (env : String → Option String) (name v : String)
    (h : get_env_variable env name = Except.ok v) :
    noEdgeSpace v = true ∧ ∃ raw, env name = some raw ∧ raw ≠ "" ∧ v = pyStrip raw := by
  cases henv : env name with
  | none =>
    simp only [get_env_variable, henv] at h
    cases h
  | some raw =>
    simp only [get_env_variable, henv] at h
    by_cases hr : raw = ""
    · rw [if_pos hr] at h; cases h
    · rw [if_neg hr] at h
      injection h with h2
      subst h2
      exact ⟨noEdgeSpace_pyStrip raw, raw, rfl, hr, rfl⟩

/-- Witness for the amended C4 at a concrete environment. -/
theorem claim4_returned_value_trimmed_witness :
    get_env_variable (fun _ => some " x ") "B12_NAME" = Except.ok "x" ∧
      (noEdgeSpace "x" = true ∧
        ∃ raw, (fun _ : String => some " x ") "B12_NAME" = some raw ∧ raw ≠ "" ∧
          "x" = pyStrip raw) :=
  ⟨rfl, claim4_returned_value_trimmed (fun _ => some " x ") "B12_NAME" "x" rfl⟩

/-! ## Configuration-failure behavior (claim C5) -/

/-- A missing or empty variable makes the lookup fail. -/
theorem get_env_error_of_bad (env : String → Option String) (name : String)
    (h : env name = none ∨ env name = some "") :
    get_env_variable env name = Except.error name := by
  rcases h with h | h <;> simp [get_env_variable, h]

/-- The error payload of a failed lookup is the name of the variable. -/
theorem get_env_error_name {env : String → Option String} {name nm : String}
    (h : get_env_variable env name = Except.error nm) : nm = name := by
  cases henv : env name with
  | none =>
    simp only [get_env_variable, henv] at h
    injection h with h2
    exact h2.symm
  | some raw =>
    simp only [get_env_variable, henv] at h
    by_cases hr : raw = ""
    · rw [if_pos hr] at h
      injection h with h2
      exact h2.symm
    · rw [if_neg hr] at h
      cases h

/-- Claim C5. If any one of the six required environment variables is
unset or empty, the run performs no network call at all, exits with
status 1, and reports the (first) missing variable on standard error.
-/
theorem claim5_missing_config_no_network (env : String → Option String)
    (now : PyDateTime) (v : String) (hv : v ∈ requiredEnvVars)
    (hbad : env v = none ∨ env v = some "") :
    (run env now).all (fun ev => !ev.isPost) = true ∧
      Event.exitProcess 1 ∈ run env now ∧
      ∃ nm, nm ∈ requiredEnvVars ∧ Event.consoleErr (envErrorLine nm) ∈ run env now := by
  have hbadv := get_env_error_of_bad env v hbad
  cases hS : get_env_variable env "B12_SECRET" with
  | error nm =>
    exact ⟨by simp [run, hS, Event.isPost], by simp [run, hS],
      nm, by simp [requiredEnvVars, get_env_error_name hS], by simp [run, hS]⟩
  | ok secret =>
    cases hN : get_env_variable env "B12_NAME" with
    | error nm =>
      exact ⟨by simp [run, hS, hN, Event.isPost, secretDiagnostics],
        by simp [run, hS, hN],
        nm, by simp [requiredEnvVars, get_env_error_name hN], by simp [run, hS, hN]⟩
    | ok nameVal =>
      cases hE : get_env_variable env "B12_EMAIL" with
      | error nm =>
        exact ⟨by simp [run, hS, hN, hE, Event.isPost, secretDiagnostics],
          by simp [run, hS, hN, hE],
          nm, by simp [requiredEnvVars, get_env_error_name hE],
          by simp [run, hS, hN, hE]⟩
      | ok emailVal =>
        cases hR : get_env_variable env "B12_RESUME_LINK" with
        | error nm =>
          exact ⟨by simp [run, hS, hN, hE, hR, Event.isPost, secretDiagnostics],
            by simp [run, hS, hN, hE, hR],
            nm, by simp [requiredEnvVars, get_env_error_name hR],
            by simp [run, hS, hN, hE, hR]⟩
        | ok resumeVal =>
          cases hP : get_env_variable env "B12_REPOSITORY_LINK" with
          | error nm =>
            exact ⟨by simp [run, hS, hN, hE, hR, hP, Event.isPost, secretDiagnostics],
              by simp [run, hS, hN, hE, hR, hP],
              nm, by simp [requiredEnvVars, get_env_error_name hP],
              by simp [run, hS, hN, hE, hR, hP]⟩
          | ok repoVal =>
            cases hA : get_env_variable env "B12_ACTION_RUN_LINK" with
            | error nm =>
              exact ⟨by simp [run, hS, hN, hE, hR, hP, hA, Event.isPost,
                  secretDiagnostics],
                by simp [run, hS, hN, hE, hR, hP, hA],
                nm, by simp [requiredEnvVars, get_env_error_name hA],
                by simp [run, hS, hN, hE, hR, hP, hA]⟩
            | ok actionVal =>
              have hvcases : v = "B12_SECRET" ∨ v = "B12_NAME" ∨ v = "B12_EMAIL" ∨
                  v = "B12_RESUME_LINK" ∨ v = "B12_REPOSITORY_LINK" ∨
                  v = "B12_ACTION_RUN_LINK" := by
                simpa [requiredEnvVars] using hv
              rcases hvcases with rfl | rfl | rfl | rfl | rfl | rfl
              · rw [hS] at hbadv; cases hbadv
              · rw [hN] at hbadv; cases hbadv
              · rw [hE] at hbadv; cases hbadv
              · rw [hR] at hbadv; cases hbadv
              · rw [hP] at hbadv; cases hbadv
              · rw [hA] at hbadv; cases hbadv

/-- Witness for C5: with every variable unset, the run exits with
status 1, reports the missing variable, and performs no POST. -/
theorem claim5_missing_config_no_network_witness :
    ("B12_SECRET" ∈ requiredEnvVars ∧
      ((fun _ : String => (none : Option String)) "B12_SECRET" = none ∨
        (fun _ : String => (none : Option String)) "B12_SECRET" = some "")) ∧
    ((run (fun _ => none) ⟨2024, 1, 1, 0, 0, 0, 0⟩).all (fun ev => !ev.isPost) = true ∧
      Event.exitProcess 1 ∈ run (fun _ => none) ⟨2024, 1, 1, 0, 0, 0, 0⟩ ∧
      ∃ nm, nm ∈ requiredEnvVars ∧
        Event.consoleErr (envErrorLine nm) ∈ run (fun _ => none) ⟨2024, 1, 1, 0, 0, 0, 0⟩) :=
  ⟨⟨by decide, Or.inl rfl⟩,
    claim5_missing_config_no_network (fun _ => none) ⟨2024, 1, 1, 0, 0, 0, 0⟩
      "B12_SECRET" (by decide) (Or.inl rfl)⟩

/-! ## Secret diagnostics (claim C6) -/

/-- Claim C6. Two accepted secrets that agree on their length and on
their first four characters produce identical secret-related
diagnostic output (`run` prints exactly `secretDiagnostics` for the
accepted secret): the diagnostics reveal at most the length and that
four-character prefix. -/
theorem claim6_secret_diagnostics_noninterference (s1 s2 : String)
    (hlen : s1.length = s2.length) (hpre : pyTake 4 s1 = pyTake 4 s2) :
    secretDiagnostics s1 = secretDiagnostics s2 := by
  simp only [secretDiagnostics, hlen, hpre]

/-- Witness for C6: two secrets sharing length and four-character
prefix but differing afterwards yield identical diagnostics. -/
theorem claim6_secret_diagnostics_noninterference_witness :
    ("abcdef" : String).length = ("abcdez" : String).length ∧
      pyTake 4 "abcdef" = pyTake 4 "abcdez" ∧
      secretDiagnostics "abcdef" = secretDiagnostics "abcdez" :=
  ⟨by decide, by decide,
    claim6_secret_diagnostics_noninterference "abcdef" "abcdez" (by decide) (by decide)⟩

/-! ## Timestamp shape (claim C7) -/

/-- Decimal digits are digit characters. -/
theorem digitChar_isDigit {m : Nat} (h : m < 10) : (Nat.digitChar m).isDigit = true := by
  interval_cases m <;> decide

/-- Digit characters are not `+`. -/
theorem isDigit_ne_plus {c : Char} (h : c.isDigit = true) : c ≠ '+' := by
  intro he
  subst he
  exact absurd h (by decide)

/-- Both characters of a two-digit pad are digits. -/
theorem pad2_digits {n : Nat} (h : n < 100) : ∀ c ∈ pad2 n, c.isDigit = true := by
  intro c hc
  simp only [pad2, List.mem_cons, List.not_mem_nil, or_false] at hc
  rcases hc with rfl | rfl
  · exact digitChar_isDigit (by omega)
  · exact digitChar_isDigit (by omega)

/-- All characters of a three-digit pad are digits. -/
theorem pad3_digits {n : Nat} (h : n < 1000) : ∀ c ∈ pad3 n, c.isDigit = true := by
  intro c hc
  simp only [pad3, List.mem_cons, List.not_mem_nil, or_false] at hc
  rcases hc with rfl | rfl | rfl
  · exact digitChar_isDigit (by omega)
  · exact digitChar_isDigit (by omega)
  · exact digitChar_isDigit (by omega)

/-- All characters of a four-digit pad are digits. -/
theorem pad4_digits {n : Nat} (h : n < 10000) : ∀ c ∈ pad4 n, c.isDigit = true := by
  intro c hc
  simp only [pad4, List.mem_cons, List.not_mem_nil, or_false] at hc
  rcases hc with rfl | rfl | rfl | rfl
  · exact digitChar_isDigit (by omega)
  · exact digitChar_isDigit (by omega)
  · exact digitChar_isDigit (by omega)
  · exact digitChar_isDigit (by omega)

/-- `replaceAll` passes over a character that does not start the
pattern. -/
theorem replaceAll_skip (pat rep : List Char) (hpat : pat.head? = some '+')
    {c : Char} (hc : c ≠ '+') (l : List Char) :
    replaceAll pat rep (c :: l) = c :: replaceAll pat rep l := by
  cases pat with
  | nil => simp at hpat
  | cons p pr =>
    simp only [List.head?_cons, Option.some.injEq] at hpat
    subst hpat
    rw [replaceAll, if_neg]
    rintro ⟨-, hlw⟩
    simp only [leadsWith, Bool.and_eq_true, decide_eq_true_eq] at hlw
    exact hc hlw.1.symm

/-- `replaceAll` passes over a prefix containing no `+`. -/
theorem replaceAll_append_noplus (pat rep : List Char) (hpat : pat.head? = some '+') :
    ∀ s t : List Char, (∀ c ∈ s, c ≠ '+') →
      replaceAll pat rep (s ++ t) = s ++ replaceAll pat rep t
  | [], _, _ => by simp
  | c :: s, t, h => by
    rw [List.cons_append,
      replaceAll_skip pat rep hpat (h c (List.mem_cons_self c s)) (s ++ t),
      replaceAll_append_noplus pat rep hpat s t
        (fun x hx => h x (List.mem_cons_of_mem c hx))]
    rfl

/-- Replacing the pattern standing alone yields the replacement. -/
theorem replaceAll_plus_pat :
    replaceAll "+00:00".data "Z".data "+00:00".data = "Z".data := by
  simp [replaceAll, leadsWith]

/-- Claim C7. Every timestamp `generate_timestamp` produces for a
valid instant matches `YYYY-MM-DDTHH:MM:SS.mmmZ` exactly: 24
characters, digits in every numeric position, exactly three
fractional digits, and a literal `Z` suffix in place of `+00:00`. -/
theorem claim7_timestamp_shape (dt : PyDateTime) (h : validInstant dt) :
    matchesTimestampShape (generate_timestamp dt) = true := by
  obtain ⟨hY1, hY2, hM1, hM2, hD1, hD2, hH, hMi, hSe, hMs⟩ := h
  have hcore : ∀ c ∈ pad4 dt.year ++ '-' :: pad2 dt.month ++ '-' :: pad2 dt.day ++
      'T' :: pad2 dt.hour ++ ':' :: pad2 dt.minute ++ ':' :: pad2 dt.second ++
      '.' :: pad3 dt.millisecond, c ≠ '+' := by
    refine List.forall_mem_append.mpr ⟨?_, List.forall_mem_cons.mpr
      ⟨by decide, fun c hc => isDigit_ne_plus (pad3_digits (by omega) c hc)⟩⟩
    refine List.forall_mem_append.mpr ⟨?_, List.forall_mem_cons.mpr
      ⟨by decide, fun c hc => isDigit_ne_plus (pad2_digits (by omega) c hc)⟩⟩
    refine List.forall_mem_append.mpr ⟨?_, List.forall_mem_cons.mpr
      ⟨by decide, fun c hc => isDigit_ne_plus (pad2_digits (by omega) c hc)⟩⟩
    refine List.forall_mem_append.mpr ⟨?_, List.forall_mem_cons.mpr
      ⟨by decide, fun c hc => isDigit_ne_plus (pad2_digits (by omega) c hc)⟩⟩
    refine List.forall_mem_append.mpr ⟨?_, List.forall_mem_cons.mpr
      ⟨by decide, fun c hc => isDigit_ne_plus (pad2_digits (by omega) c hc)⟩⟩
    refine List.forall_mem_append.mpr ⟨?_, List.forall_mem_cons.mpr
      ⟨by decide, fun c hc => isDigit_ne_plus (pad2_digits (by omega) c hc)⟩⟩
    exact fun c hc => isDigit_ne_plus (pad4_digits (by omega) c hc)
  have hsplit : isoChars dt =
      (pad4 dt.year ++ '-' :: pad2 dt.month ++ '-' :: pad2 dt.day ++
        'T' :: pad2 dt.hour ++ ':' :: pad2 dt.minute ++ ':' :: pad2 dt.second ++
        '.' :: pad3 dt.millisecond) ++ "+00:00".data := rfl
  have hrep : replaceAll "+00:00".data "Z".data (isoChars dt) =
      (pad4 dt.year ++ '-' :: pad2 dt.month ++ '-' :: pad2 dt.day ++
        'T' :: pad2 dt.hour ++ ':' :: pad2 dt.minute ++ ':' :: pad2 dt.second ++
        '.' :: pad3 dt.millisecond) ++ "Z".data := by
    rw [hsplit, replaceAll_append_noplus "+00:00".data "Z".data rfl _ _ hcore,
      replaceAll_plus_pat]
  have d01 : (Nat.digitChar (dt.year / 1000)).isDigit = true := digitChar_isDigit (by omega)
  have d02 : (Nat.digitChar (dt.year / 100 % 10)).isDigit = true := digitChar_isDigit (by omega)
  have d03 : (Nat.digitChar (dt.year / 10 % 10)).isDigit = true := digitChar_isDigit (by omega)
  have d04 : (Nat.digitChar (dt.year % 10)).isDigit = true := digitChar_isDigit (by omega)
  have d05 : (Nat.digitChar (dt.month / 10)).isDigit = true := digitChar_isDigit (by omega)
  have d06 : (Nat.digitChar (dt.month % 10)).isDigit = true := digitChar_isDigit (by omega)
  have d07 : (Nat.digitChar (dt.day / 10)).isDigit = true := digitChar_isDigit (by omega)
  have d08 : (Nat.digitChar (dt.day % 10)).isDigit = true := digitChar_isDigit (by omega)
  have d09 : (Nat.digitChar (dt.hour / 10)).isDigit = true := digitChar_isDigit (by omega)
  have d10 : (Nat.digitChar (dt.hour % 10)).isDigit = true := digitChar_isDigit (by omega)
  have d11 : (Nat.digitChar (dt.minute / 10)).isDigit = true := digitChar_isDigit (by omega)
  have d12 : (Nat.digitChar (dt.minute % 10)).isDigit = true := digitChar_isDigit (by omega)
  have d13 : (Nat.digitChar (dt.second / 10)).isDigit = true := digitChar_isDigit (by omega)
  have d14 : (Nat.digitChar (dt.second % 10)).isDigit = true := digitChar_isDigit (by omega)
  have d15 : (Nat.digitChar (dt.millisecond / 100)).isDigit = true :=
    digitChar_isDigit (by omega)
  have d16 : (Nat.digitChar (dt.millisecond / 10 % 10)).isDigit = true :=
    digitChar_isDigit (by omega)
  have d17 : (Nat.digitChar (dt.millisecond % 10)).isDigit = true :=
    digitChar_isDigit (by omega)
  show matchesClasses tsClasses (replaceAll "+00:00".data "Z".data (isoChars dt)) = true
  rw [hrep]
  simp [tsClasses, matchesClasses, pad4, pad3, pad2, List.cons_append,
    d01, d02, d03, d04, d05, d06, d07, d08, d09, d10, d11, d12, d13, d14, d15, d16, d17]

/-- Witness for C7 at a concrete instant. -/
theorem claim7_timestamp_shape_witness :
    validInstant ⟨2024, 1, 1, 0, 0, 0, 0⟩ ∧
      matchesTimestampShape (generate_timestamp ⟨2024, 1, 1, 0, 0, 0, 0⟩) = true :=
  ⟨by decide, claim7_timestamp_shape ⟨2024, 1, 1, 0, 0, 0, 0⟩ (by decide)⟩

/-! ## Escaping discipline (claim C8) -/

/-- Claim C8. Inside string values, the serializer of `create_payload`
escapes exactly the double quote, the backslash, and the control
characters: every character of code point at least `0x20` other than
`"` and `\` — non-ASCII characters included — passes through as
itself, each escaped character is rendered as a backslash escape
sequence, and a value is serialized as the quote-delimited
concatenation of its per-character escapes. -/
theorem claim8_minimal_escaping :
    (∀ c : Char, 32 ≤ c.toNat → c ≠ '"' → c ≠ '\\' →
      escapeChar c = String.singleton c) ∧
    (∀ c : Char, c.toNat < 32 ∨ c = '"' ∨ c = '\\' →
      (escapeChar c).data.head? = some '\\') ∧
    (∀ v : String, jsonQuote v = "\"" ++ String.join (v.data.map escapeChar) ++ "\"") := by
  refine ⟨?_, ?_, fun v => rfl⟩
  · intro c h1 h2 h3
    rw [escapeChar, if_neg h2, if_neg h3,
      if_neg (fun he => absurd (he ▸ h1) (by decide)),
      if_neg (fun he => absurd (he ▸ h1) (by decide)),
      if_neg (fun he => absurd (he ▸ h1) (by decide)),
      if_neg (fun he => absurd (he ▸ h1) (by decide)),
      if_neg (fun he => absurd (he ▸ h1) (by decide)),
      if_neg (by omega)]
  · intro c hc
    rw [escapeChar]
    by_cases h1 : c = '"'
    · rw [if_pos h1]; rfl
    rw [if_neg h1]
    by_cases h2 : c = '\\'
    · rw [if_pos h2]; rfl
    rw [if_neg h2]
    by_cases h3 : c = '\x08'
    · rw [if_pos h3]; rfl
    rw [if_neg h3]
    by_cases h4 : c = '\x0c'
    · rw [if_pos h4]; rfl
    rw [if_neg h4]
    by_cases h5 : c = '\n'
    · rw [if_pos h5]; rfl
    rw [if_neg h5]
    by_cases h6 : c = '\r'
    · rw [if_pos h6]; rfl
    rw [if_neg h6]
    by_cases h7 : c = '\t'
    · rw [if_pos h7]; rfl
    rw [if_neg h7]
    have hlt : c.toNat < 32 := by
      rcases hc with h | h | h
      · exact h
      · exact absurd h h1
      · exact absurd h h2
    rw [if_pos hlt]
    rfl

/-- Witness for C8 at the non-ASCII character `é` (which passes
through unescaped), the control character `\x01` (which is escaped
with a backslash), and a concrete value. -/
theorem claim8_minimal_escaping_witness :
    32 ≤ ('é' : Char).toNat ∧ escapeChar 'é' = String.singleton 'é' ∧
      (escapeChar '\x01').data.head? = some '\\' ∧
      jsonQuote "é" = "\"" ++ String.join (("é" : String).data.map escapeChar) ++ "\"" :=
  ⟨by decide,
    claim8_minimal_escaping.1 'é' (by decide) (by decide) (by decide),
    claim8_minimal_escaping.2.1 '\x01' (Or.inl (by decide)),
    claim8_minimal_escaping.2.2 "é"⟩

end B12
